import Mathlib

/-!
To-Do-List (`main.go`): handlers over an explicit task table

The program keeps one SQLite table `tasks` and serves five routes.  The
embedding makes the process-wide handle `db` an explicit `Store` that every
handler receives and returns, and turns each handler into a function from the
store and the request to an `Outcome`.

Conventions.

* Go strings are read one byte at a time by the scanners used here, and every
  byte those scanners accept is ASCII; they are modelled on the character list
  of a Lean `String`.
* Go `int` is 64 bits wide (`strconv.Atoi` range check).
* A `time.Time` is represented by its wall-clock reading in its own location
  together with that location's offset from UTC; `Time.unix` is the instant.
* SQL statements are executed on a healthy store: the `log.Fatal` branches
  that follow `db.Exec` are not taken, rowids are unbounded integers (the
  AUTOINCREMENT ceiling `2^63 - 1` is not reached) and the template files are
  present.  The only `log.Fatal` that depends on the stored data is the
  deadline re-parse in `listTasks`.
* The comparison `id = ?` of the INTEGER column with a bound text value is
  done by the database engine, which first coerces the text to a number; that
  coercion is the parameter `coerce : String → Option Int` (the integer the
  text denotes, if it denotes one).
-/

namespace TodoList

/-! ## `strconv.Atoi` -/

/-- Value of a run of decimal digits, `none` at the first byte that is not a
digit: the loop `ch -= 48; if ch > 9 then error; n = n*10 + ch`. -/
def digitsValue : List Char → Nat → Option Nat
  | [], n => some n
  | c :: cs, n => if c.isDigit then digitsValue cs (n * 10 + (c.toNat - 48)) else none

/-- Go `strconv.Atoi` for a 64-bit `int`: an optional sign, then one or more
decimal digits, the value within `[-2^63, 2^63 - 1]`; anything else is an
error (`none`). -/
def Atoi (s : String) : Option Int :=
  match s.data with
  | [] => none
  | c :: cs =>
    let body := if c = '-' ∨ c = '+' then cs else c :: cs
    if body.isEmpty then none
    else
      match digitsValue body 0 with
      | none => none
      | some n =>
        if c = '-' then (if n ≤ 2 ^ 63 then some (-(n : Int)) else none)
        else (if n < 2 ^ 63 then some (n : Int) else none)

/-! ## `time`: values, layouts, `Parse` and `Format` -/

/-- A `time.Time`: the calendar reading in the value's location and the
location's offset east of UTC, in seconds. -/
structure Time where
  year : Int
  month : Nat
  day : Nat
  hour : Nat
  min : Nat
  sec : Nat
  nsec : Nat
  offset : Int
deriving DecidableEq, Repr

/-- Go `isLeap`. -/
def isLeap (year : Int) : Bool :=
  year % 4 == 0 && (year % 100 != 0 || year % 400 == 0)

/-- Go `daysIn`: the number of days of month `m` in `year`. -/
def daysIn (m : Nat) (year : Int) : Nat :=
  if m = 2 ∧ isLeap year = true then 29
  else
    match m with
    | 1 => 31 | 2 => 28 | 3 => 31 | 4 => 30 | 5 => 31 | 6 => 30
    | 7 => 31 | 8 => 31 | 9 => 30 | 10 => 31 | 11 => 30 | 12 => 31
    | _ => 0

/-- Days from 1970-01-01 to the given proleptic Gregorian date. -/
def daysFromCivil (y : Int) (m d : Nat) : Int :=
  let y1 : Int := if m ≤ 2 then y - 1 else y
  let era : Int := y1 / 400
  let yoe : Int := y1 - era * 400
  let mp : Int := ((m + 9) % 12 : Nat)
  let doy : Int := (153 * mp + 2) / 5 + (d : Int) - 1
  let doe : Int := yoe * 365 + yoe / 4 - yoe / 100 + doy
  era * 146097 + doe - 719468

/-- The instant a `Time` denotes, in seconds since the Unix epoch
(`Time.Unix`). -/
def Time.unix (t : Time) : Int :=
  daysFromCivil t.year t.month t.day * 86400
    + (t.hour : Int) * 3600 + (t.min : Int) * 60 + (t.sec : Int) - t.offset

/-- Go `Time.Equal`: the two values denote the same instant. -/
def Time.Equal (a b : Time) : Prop := a.unix = b.unix ∧ a.nsec = b.nsec

/-- The chunks `nextStdChunk` cuts the layouts of this program into. -/
inductive Chunk where
  | lit (text : List Char)
  | stdLongYear
  | stdZeroMonth
  | stdZeroDay
  | stdHour
  | stdZeroMinute
  | stdZeroSecond
  | stdFracSecond9
  | stdNumColonTZ
deriving DecidableEq, Repr

/-- Layout `"2006-01-02T15:04"`, used by `addTask` on the form field. -/
def layoutForm : List Chunk :=
  [.stdLongYear, .lit ['-'], .stdZeroMonth, .lit ['-'], .stdZeroDay, .lit ['T'],
   .stdHour, .lit [':'], .stdZeroMinute]

/-- Layout `"2006-01-02 15:04:05-07:00"`, used by `listTasks` on the stored
text. -/
def layoutRead : List Chunk :=
  [.stdLongYear, .lit ['-'], .stdZeroMonth, .lit ['-'], .stdZeroDay, .lit [' '],
   .stdHour, .lit [':'], .stdZeroMinute, .lit [':'], .stdZeroSecond, .stdNumColonTZ]

/-- Layout `"2006-01-02 15:04:05.999999999-07:00"`, the first of the driver's
`SQLiteTimestampFormats`, with which a bound `time.Time` is written. -/
def layoutWrite : List Chunk :=
  [.stdLongYear, .lit ['-'], .stdZeroMonth, .lit ['-'], .stdZeroDay, .lit [' '],
   .stdHour, .lit [':'], .stdZeroMinute, .lit [':'], .stdZeroSecond,
   .stdFracSecond9, .stdNumColonTZ]

/-- Go `cutspace`. -/
def cutspace : List Char → List Char
  | ' ' :: cs => cutspace cs
  | cs => cs

/-- Go `skip`: consume the literal text `pre` at the head of `value`.  A space
in the layout requires the value to be at its end or at a space, and then the
whole run of spaces is cut from both (`cutspace` on the layout and on the
value); `inRun` records that the layout is inside such a run, whose further
spaces are already cut. -/
def skipFrom : Bool → List Char → List Char → Option (List Char)
  | _, value, [] => some value
  | inRun, value, p :: ps =>
    if p = ' ' then
      if inRun then skipFrom true value ps
      else
        match value with
        | [] => skipFrom true [] ps
        | v :: vs => if v ≠ ' ' then none else skipFrom true (cutspace (v :: vs)) ps
    else
      match value with
      | [] => none
      | v :: vs => if v ≠ p then none else skipFrom false vs ps

/-- Go `skip value pre`. -/
def skip (value pre : List Char) : Option (List Char) := skipFrom false value pre

/-- Go `getnum`: one or two leading digits; with `fixed` exactly two. -/
def getnum (s : List Char) (fixed : Bool) : Option (Nat × List Char) :=
  match s with
  | [] => none
  | c0 :: rest =>
    if c0.isDigit then
      match rest with
      | [] => if fixed then none else some (c0.toNat - 48, rest)
      | c1 :: rest1 =>
        if c1.isDigit then some ((c0.toNat - 48) * 10 + (c1.toNat - 48), rest1)
        else if fixed then none else some (c0.toNat - 48, rest)
    else none

/-- The `stdLongYear` case: the first four bytes, all digits (`atoi` of
`value[0:4]` after the `isDigit(value, 0)` test). -/
def getYear (s : List Char) : Option (Int × List Char) :=
  match s with
  | a :: b :: c :: d :: rest =>
    if a.isDigit then
      match digitsValue [a, b, c, d] 0 with
      | some n => some ((n : Int), rest)
      | none => none
    else none
  | _ => none

/-- Leading run of digits of a value and what follows it. -/
def spanDigits : List Char → List Char × List Char
  | [] => ([], [])
  | c :: cs =>
    if c.isDigit then ((c :: (spanDigits cs).1), (spanDigits cs).2) else ([], c :: cs)

/-- Go `parseNanoseconds` on the digits that follow the separator: at most
nine of them count, scaled to nanoseconds. -/
def nanosOf (ds : List Char) : Nat :=
  let kept := ds.take 9
  ((digitsValue kept 0).getD 0) * 10 ^ (9 - kept.length)

/-- A fractional second at the head of the value: a period or comma followed
by a digit.  Returns the nanoseconds and the rest, `none` when there is no
fraction there. -/
def takeFraction (v : List Char) : Option (Nat × List Char) :=
  match v with
  | sep :: c :: cs =>
    if (sep = '.' ∨ sep = ',') ∧ c.isDigit = true then
      some (nanosOf (spanDigits (c :: cs)).1, (spanDigits (c :: cs)).2)
    else none
  | _ => none

/-- The `stdNumColonTZ` case: sign, two digits, a colon, two digits. -/
def getZone (v : List Char) : Option (Int × List Char) :=
  match v with
  | sg :: h1 :: h2 :: col :: m1 :: m2 :: rest =>
    if col ≠ ':' then none
    else
      match getnum [h1, h2] true, getnum [m1, m2] true with
      | some (hr, _), some (mm, _) =>
        if 24 < hr ∨ 60 < mm then none
        else if sg = '+' then some ((((hr * 60 + mm) * 60 : Nat) : Int), rest)
        else if sg = '-' then some (-(((hr * 60 + mm) * 60 : Nat) : Int), rest)
        else none
      | _, _ => none
  | _ => none

/-- The first standard chunk of what is left of the layout, literal text
passed over (the `std` that `nextStdChunk` returns). -/
def nextStd : List Chunk → Option Chunk
  | [] => none
  | .lit _ :: rest => nextStd rest
  | c :: _ => some c

/-- The fields `parse` builds up while it walks the layout. -/
structure Fields where
  year : Int := 0
  month : Nat := 1
  day : Nat := 1
  hour : Nat := 0
  min : Nat := 0
  sec : Nat := 0
  nsec : Nat := 0
  zoneOffset : Option Int := none
deriving DecidableEq, Repr

/-- The loop of Go `time.parse`, one layout chunk an iteration; `none` is a
parse error (bad syntax, a field out of range, or extra text at the end). -/
def parseChunks : List Chunk → Fields → List Char → Option Fields
  | [], f, v => if v.isEmpty then some f else none
  | .lit p :: rest, f, v =>
    match skip v p with
    | some v1 => parseChunks rest f v1
    | none => none
  | .stdLongYear :: rest, f, v =>
    match getYear v with
    | some (y, v1) => parseChunks rest { f with year := y } v1
    | none => none
  | .stdZeroMonth :: rest, f, v =>
    match getnum v true with
    | some (m, v1) => if m = 0 ∨ 12 < m then none else parseChunks rest { f with month := m } v1
    | none => none
  | .stdZeroDay :: rest, f, v =>
    match getnum v true with
    | some (d, v1) => parseChunks rest { f with day := d } v1
    | none => none
  | .stdHour :: rest, f, v =>
    match getnum v false with
    | some (h, v1) => if 24 ≤ h then none else parseChunks rest { f with hour := h } v1
    | none => none
  | .stdZeroMinute :: rest, f, v =>
    match getnum v true with
    | some (m, v1) => if 60 ≤ m then none else parseChunks rest { f with min := m } v1
    | none => none
  | .stdZeroSecond :: rest, f, v =>
    match getnum v true with
    | some (s, v1) =>
      if 60 ≤ s then none
      else if nextStd rest = some .stdFracSecond9 then parseChunks rest { f with sec := s } v1
      else
        match takeFraction v1 with
        | some (ns, v2) => parseChunks rest { f with sec := s, nsec := ns } v2
        | none => parseChunks rest { f with sec := s } v1
    | none => none
  | .stdFracSecond9 :: rest, f, v =>
    match takeFraction v with
    | some (ns, v1) => parseChunks rest { f with nsec := ns } v1
    | none => parseChunks rest f v
  | .stdNumColonTZ :: rest, f, v =>
    match getZone v with
    | some (z, v1) => parseChunks rest { f with zoneOffset := some z } v1
    | none => none

/-- Go `time.Parse(layout, value)` for a layout given by its chunks: the loop,
then the day-of-month validation, then `Date` in UTC shifted to the parsed
zone (UTC when the layout has none). -/
def timeParse (layout : List Chunk) (value : String) : Option Time :=
  match parseChunks layout {} value.data with
  | none => none
  | some f =>
    if f.day < 1 ∨ daysIn f.month f.year < f.day then none
    else some ⟨f.year, f.month, f.day, f.hour, f.min, f.sec, f.nsec, f.zoneOffset.getD 0⟩

/-- Go `appendInt`: the decimal form of `x`, zero-padded to `width` digits
after the sign. -/
def appendInt (x : Int) (width : Nat) : List Char :=
  let u := x.natAbs
  let sign : List Char := if x < 0 then ['-'] else []
  if width = 2 ∧ u < 100 then
    sign ++ [Nat.digitChar (u / 10), Nat.digitChar (u % 10)]
  else if width = 4 ∧ u < 10000 then
    sign ++ [Nat.digitChar (u / 1000), Nat.digitChar (u / 100 % 10),
             Nat.digitChar (u / 10 % 10), Nat.digitChar (u % 10)]
  else
    sign ++ List.replicate (width - (Nat.toDigits 10 u).length) '0' ++ Nat.toDigits 10 u

/-- Cut the trailing zeros of a digit run. -/
def trimZeros (ds : List Char) : List Char :=
  (ds.reverse.dropWhile (fun c => c = '0')).reverse

/-- Go `appendNano` for `.999999999`: nothing for a whole second, else the
period and the nine digits without their trailing zeros. -/
def appendNano (nsec : Nat) : List Char :=
  if nsec = 0 then [] else '.' :: trimZeros (appendInt (nsec : Int) 9)

/-- The `stdNumColonTZ` case of `Format`: sign, hours, colon, minutes of the
offset (truncated to minutes). -/
def appendZone (offset : Int) : List Char :=
  let zone : Int := Int.tdiv offset 60
  if zone < 0 then
    '-' :: (appendInt (Int.tdiv (-zone) 60) 2 ++ ':' :: appendInt (Int.tmod (-zone) 60) 2)
  else
    '+' :: (appendInt (Int.tdiv zone 60) 2 ++ ':' :: appendInt (Int.tmod zone 60) 2)

/-- The loop of Go `Time.AppendFormat`, one layout chunk an iteration. -/
def formatChunks : List Chunk → Time → List Char
  | [], _ => []
  | .lit p :: rest, t => p ++ formatChunks rest t
  | .stdLongYear :: rest, t => appendInt t.year 4 ++ formatChunks rest t
  | .stdZeroMonth :: rest, t => appendInt (t.month : Int) 2 ++ formatChunks rest t
  | .stdZeroDay :: rest, t => appendInt (t.day : Int) 2 ++ formatChunks rest t
  | .stdHour :: rest, t => appendInt (t.hour : Int) 2 ++ formatChunks rest t
  | .stdZeroMinute :: rest, t => appendInt (t.min : Int) 2 ++ formatChunks rest t
  | .stdZeroSecond :: rest, t => appendInt (t.sec : Int) 2 ++ formatChunks rest t
  | .stdFracSecond9 :: rest, t => appendNano t.nsec ++ formatChunks rest t
  | .stdNumColonTZ :: rest, t => appendZone t.offset ++ formatChunks rest t

/-- Go `Time.Format(layout)`. -/
def timeFormat (layout : List Chunk) (t : Time) : String :=
  String.mk (formatChunks layout t)

/-! ## The table `tasks` -/

/-- A row of `tasks`, as `addTask` writes it: `deadline` is the TEXT column,
`none` for NULL. -/
structure Row where
  id : Int
  description : String
  completed : Bool
  priority : Int
  deadline : Option String
  category : String
deriving DecidableEq, Repr

/-- The database: the rows of `tasks` in rowid order (the order an unordered
`SELECT` scans them in) and the AUTOINCREMENT counter kept in
`sqlite_sequence`, the largest rowid ever handed out. -/
structure Store where
  rows : List Row
  seq : Int
deriving DecidableEq, Repr

/-- Largest rowid in the table, `0` for an empty table. -/
def maxId : List Row → Int
  | [] => 0
  | r :: rs => max r.id (maxId rs)

/-- Statement `INSERT INTO tasks (description, completed, priority, deadline,
category) VALUES (?, ?, ?, ?, ?)`: the new rowid is one more than the largest
rowid the table ever had, so the row goes last. -/
def Store.insert (s : Store) (description : String) (completed : Bool) (priority : Int)
    (deadline : Option String) (category : String) : Store :=
  let id := max s.seq (maxId s.rows) + 1
  { rows := s.rows ++ [⟨id, description, completed, priority, deadline, category⟩], seq := id }

/-- Statement `DELETE FROM tasks WHERE id=?` with a bound text. -/
def Store.delete (coerce : String → Option Int) (s : Store) (taskID : String) : Store :=
  { s with rows := s.rows.filter (fun r => decide (coerce taskID ≠ some r.id)) }

/-- Statement `UPDATE tasks SET description=? WHERE id=?` with bound texts. -/
def Store.updateDescription (coerce : String → Option Int) (s : Store)
    (description taskID : String) : Store :=
  { s with rows := s.rows.map (fun r =>
      if coerce taskID = some r.id then { r with description := description } else r) }

/-- Statement `SELECT id, description, completed FROM tasks WHERE id=?` read
with `QueryRow`: the first matching row, `none` for `sql.ErrNoRows`. -/
def Store.selectById (coerce : String → Option Int) (s : Store) (taskID : String) :
    Option Row :=
  s.rows.find? (fun r => decide (coerce taskID = some r.id))

/-- The primary key: no two rows share an id. -/
def Store.KeysDistinct (s : Store) : Prop := (s.rows.map Row.id).Nodup

/-! ## Requests, responses, outcomes -/

/-- Go `Task`. -/
structure Task where
  ID : Int
  Description : String
  Completed : Bool
  Priority : Int
  Deadline : Option Time
  Category : String
deriving DecidableEq, Repr

/-- What a handler reads of an `http.Request`: the method, `URL.Path`, and the
parsed form as the list of its fields. -/
structure Request where
  method : String
  path : String
  form : List (String × String)
deriving DecidableEq, Repr

/-- Go `Request.FormValue`: the first value of the field, the empty string
when the field is missing. -/
def Request.FormValue (r : Request) (key : String) : String :=
  match r.form.find? (fun kv => decide (kv.1 = key)) with
  | some kv => kv.2
  | none => ""

/-- The body of a response: nothing, a plain text, or the data a template is
executed with. -/
inductive Body where
  | none
  | text (msg : String)
  | index (tasks : List Task)
  | update (task : Task)
deriving DecidableEq, Repr

/-- What a handler writes: status, `Location` header, body. -/
structure Response where
  status : Nat
  location : Option String
  body : Body
deriving DecidableEq, Repr

/-- Go `http.Error`: the status and the message on a line of its own. -/
def httpError (msg : String) (code : Nat) : Response :=
  ⟨code, none, .text (msg ++ "\n")⟩

/-- Go `http.Redirect` in answer to a POST: the status and the `Location`
header, no body. -/
def httpRedirect (url : String) (code : Nat) : Response :=
  ⟨code, some url, .none⟩

/-- How a handler call ends: it returns, having written a response and left
the store in some state; or `log.Fatal` ends the process; or a slice
expression is out of range. -/
inductive Outcome where
  | reply (s : Store) (r : Response)
  | fatal
  | outOfRange
deriving DecidableEq, Repr

/-- Go `s[n:]`: `none` when the string is shorter than `n`.  Lengths are
counted in characters, which are the bytes Go counts on the ASCII paths the
router hands to the handlers that slice (`/delete/...`, `/update/...`); on a
path with a multi-byte character before position `n` the two counts differ. -/
def sliceFrom (s : String) (n : Nat) : Option String :=
  if s.data.length < n then none else some (String.mk (s.data.drop n))

/-! ## The handlers of `main.go` -/

/-- The text of the 404 page. -/
def notFoundMessage : String := "😒😒😒 404 Page Not Found 😒😒😒 "

/-- The paths `NotFoundHandler` lets through. -/
def knownPaths : List String := ["/", "/add", "/delete/", "/update/", "/update/submit/"]

/-- Go `NotFoundHandler`: `some` response (and `true`) when the path is not
one of the five known ones, `none` (`false`) otherwise. -/
def NotFoundHandler (r : Request) : Option Response :=
  if ¬ (r.path = "/" ∨ r.path = "/add" ∨ r.path = "/delete/" ∨ r.path = "/update/"
        ∨ r.path = "/update/submit/") then
    some (httpError notFoundMessage 404)
  else none

/-- One turn of the `rows.Next()` loop of `listTasks`: scan the row, re-parse
a non-NULL deadline; `none` is `log.Fatal`. -/
def scanRow (r : Row) : Option Task :=
  match r.deadline with
  | none => some ⟨r.id, r.description, r.completed, r.priority, none, r.category⟩
  | some text =>
    match timeParse layoutRead text with
    | some t => some ⟨r.id, r.description, r.completed, r.priority, some t, r.category⟩
    | none => none

/-- The `rows.Next()` loop of `listTasks`. -/
def scanRows : List Row → Option (List Task)
  | [] => some []
  | r :: rs =>
    match scanRow r with
    | none => none
    | some t =>
      match scanRows rs with
      | none => none
      | some ts => some (t :: ts)

/-- Go `listTasks`. -/
def listTasks (s : Store) (r : Request) : Outcome :=
  match NotFoundHandler r with
  | some resp => .reply s resp
  | none =>
    match scanRows s.rows with
    | none => .fatal
    | some tasks => .reply s ⟨200, none, .index tasks⟩

/-- How the driver binds the `*time.Time` argument: NULL for nil, else the
text `Format(SQLiteTimestampFormats[0])`. -/
def bindDeadline : Option Time → Option String
  | none => none
  | some t => some (timeFormat layoutWrite t)

/-- Go `addTask`. -/
def addTask (s : Store) (r : Request) : Outcome :=
  if r.method ≠ "POST" then .reply s (httpError "Method not allowed" 405)
  else if r.FormValue "task" = " " then
    .reply s (httpError "😒😒 Task description cannot be empty" 400)
  else
    match Atoi (r.FormValue "priority") with
    | none => .reply s (httpError "Invalid priority value" 400)
    | some priority =>
      if r.FormValue "deadline" ≠ "" then
        match timeParse layoutForm (r.FormValue "deadline") with
        | none => .reply s (httpError "Invalid deadline format" 400)
        | some deadlineTime =>
          .reply (s.insert (r.FormValue "task") false priority
                    (bindDeadline (some deadlineTime)) (r.FormValue "category"))
                 (httpRedirect "/" 303)
      else
        .reply (s.insert (r.FormValue "task") false priority (bindDeadline none)
                  (r.FormValue "category"))
               (httpRedirect "/" 303)

/-- Go `deleteTask`. -/
def deleteTask (coerce : String → Option Int) (s : Store) (r : Request) : Outcome :=
  if r.method ≠ "POST" then .reply s (httpError "Method not allowed" 405)
  else
    match sliceFrom r.path "/delete/".length with
    | none => .outOfRange
    | some taskID => .reply (s.delete coerce taskID) (httpRedirect "/" 303)

/-- Go `renderUpdateTaskPage`: the task handed to the template has only the
three selected columns set. -/
def renderUpdateTaskPage (coerce : String → Option Int) (s : Store) (r : Request) : Outcome :=
  match sliceFrom r.path "/update/".length with
  | none => .outOfRange
  | some taskID =>
    match s.selectById coerce taskID with
    | none => .reply s (httpError "Task not found" 404)
    | some row =>
      .reply s ⟨200, none, .update ⟨row.id, row.description, row.completed, 0, none, ""⟩⟩

/-- Go `updateTask`. -/
def updateTask (coerce : String → Option Int) (s : Store) (r : Request) : Outcome :=
  if r.method ≠ "POST" then .reply s (httpError "Method not allowed" 405)
  else
    .reply (s.updateDescription coerce (r.FormValue "task") (r.FormValue "id"))
           (httpRedirect "/" 303)

/-! ## The router (`http.DefaultServeMux` with the patterns of `main`) -/

/-- The handlers `main` registers. -/
inductive Handler where
  | listTasks
  | addTask
  | deleteTask
  | renderUpdateTaskPage
  | updateTask
  | fileServer
deriving DecidableEq, Repr

/-- The registrations of `main`, in source order. -/
def patterns : List (String × Handler) :=
  [("/", .listTasks), ("/add", .addTask), ("/delete/", .deleteTask),
   ("/update/", .renderUpdateTaskPage), ("/update/submit/", .updateTask),
   ("/static/", .fileServer)]

/-- Whether `pre` starts `l`. -/
def startsWith : List Char → List Char → Bool
  | _, [] => true
  | [], _ :: _ => false
  | c :: cs, p :: ps => decide (c = p) && startsWith cs ps

/-- The handler registered under exactly this pattern. -/
def exactPattern (path : String) : Option Handler :=
  match patterns.find? (fun e => decide (e.1 = path)) with
  | some e => some e.2
  | none => none

/-- Among the patterns that end in a slash and start the path, the longest. -/
def longestSubtree (path : String) : List (String × Handler) → Option (String × Handler)
  | [] => none
  | e :: es =>
    let best := longestSubtree path es
    if e.1.data.getLast? = some '/' ∧ startsWith path.data e.1.data = true then
      match best with
      | some b => if b.1.data.length < e.1.data.length then some e else some b
      | none => some e
    else best

/-- Go `ServeMux.match`: an exact pattern first, else the longest subtree
pattern that starts the path. -/
def muxMatch (path : String) : Option Handler :=
  match exactPattern path with
  | some h => some h
  | none =>
    match longestSubtree path patterns with
    | some e => some e.2
    | none => none

/-- Split a path at its slashes. -/
def splitSlash : List Char → List (List Char)
  | [] => [[]]
  | c :: cs =>
    if c = '/' then [] :: splitSlash cs
    else
      match splitSlash cs with
      | seg :: segs => (c :: seg) :: segs
      | [] => [[c]]

/-- The elements of a rooted path that `path.Clean` keeps, innermost first on
the stack: empty and `.` elements go, `..` takes the element before it. -/
def cleanSegs : List (List Char) → List (List Char) → List (List Char)
  | stack, [] => stack.reverse
  | stack, seg :: rest =>
    if seg = [] ∨ seg = ['.'] then cleanSegs stack rest
    else if seg = ['.', '.'] then cleanSegs stack.tail rest
    else cleanSegs (seg :: stack) rest

/-- Go `path.Clean` on a rooted path. -/
def pathClean (p : List Char) : List Char :=
  match cleanSegs [] (splitSlash p) with
  | [] => ['/']
  | segs => (segs.map (fun seg => '/' :: seg)).flatten

/-- Go `cleanPath` of `net/http`: root the path, clean it, keep a trailing
slash. -/
def cleanPath (path : String) : String :=
  match path.data with
  | [] => "/"
  | c :: cs =>
    let p := if c = '/' then c :: cs else '/' :: c :: cs
    let np := pathClean p
    if p.getLast? = some '/' ∧ np ≠ ['/'] then String.mk (np ++ ['/']) else String.mk np

/-- What the router does with a request. -/
inductive Route where
  | moved (location : String)
  | handle (h : Handler)
  | noMatch
deriving DecidableEq, Repr

/-- Go `ServeMux.Handler` for a request other than CONNECT: a 301 to
`path/` when only that is registered, a 301 to the cleaned path when the path
is not clean, else the matching handler. -/
def muxHandler (path : String) : Route :=
  let p := cleanPath path
  if exactPattern p = none ∧ (exactPattern (p ++ "/")).isSome = true then .moved (p ++ "/")
  else if p ≠ path then .moved p
  else
    match muxMatch path with
    | some h => .handle h
    | none => .noMatch

/-- What the server does with a request. -/
inductive Served where
  | moved (location : String)
  | files (name : String)
  | noMatch
  | done (o : Outcome)
deriving DecidableEq, Repr

/-- The server: the router picks the handler, the handler runs.  Requests
under `/static/` go to the file server with the prefix stripped. -/
def serve (coerce : String → Option Int) (s : Store) (r : Request) : Served :=
  match muxHandler r.path with
  | .moved u => .moved u
  | .noMatch => .noMatch
  | .handle .listTasks => .done (listTasks s r)
  | .handle .addTask => .done (addTask s r)
  | .handle .deleteTask => .done (deleteTask coerce s r)
  | .handle .renderUpdateTaskPage => .done (renderUpdateTaskPage coerce s r)
  | .handle .updateTask => .done (updateTask coerce s r)
  | .handle .fileServer => .files (String.mk (r.path.data.drop "/static/".length))

/-! ## Auxiliary predicates and sample data -/

/-- The values `time.Parse` can return for the form layout: a valid calendar
date of a year `0000`..`9999` at a whole minute, in UTC. -/
def FormTime (t : Time) : Prop :=
  0 ≤ t.year ∧ t.year < 10000 ∧ 1 ≤ t.month ∧ t.month ≤ 12 ∧ 1 ≤ t.day
    ∧ t.day ≤ daysIn t.month t.year ∧ t.hour < 24 ∧ t.min < 60
    ∧ t.sec = 0 ∧ t.nsec = 0 ∧ t.offset = 0

/-- A coercion for concrete runs, not the database engine's own: a text of
decimal digits denotes its value, any other text denotes no integer.  The
engine also takes signs, surrounding blanks and decimal or exponent forms of
a whole number (`+1`, ` 1`, `1.0`, `1e0`); the two agree on plain digit texts
and on texts that are no number at all, which is where it is used. -/
def decimalId (t : String) : Option Int :=
  if t.data.isEmpty then none
  else
    match digitsValue t.data 0 with
    | some n => some (n : Int)
    | none => none

/-! ## Digits -/

theorem digitChar_isDigit (k : Nat) (h : k < 10) : (Nat.digitChar k).isDigit = true := by
  interval_cases k <;> rfl

theorem digitChar_value (k : Nat) (h : k < 10) : (Nat.digitChar k).toNat - 48 = k := by
  interval_cases k <;> rfl

theorem isDigit_value_le (c : Char) (h : c.isDigit = true) : c.toNat - 48 ≤ 9 := by
  simp only [Char.isDigit, Bool.and_eq_true, decide_eq_true_eq] at h
  have h2 : c.val.toNat ≤ 57 := h.2
  show c.val.toNat - 48 ≤ 9
  omega

theorem getnum_two (a b : Nat) (ha : a < 10) (hb : b < 10) (rest : List Char) (fx : Bool) :
    getnum (Nat.digitChar a :: Nat.digitChar b :: rest) fx = some (a * 10 + b, rest) := by
  simp [getnum, digitChar_isDigit, digitChar_value, ha, hb]

theorem getYear_four (a b c d : Nat) (ha : a < 10) (hb : b < 10) (hc : c < 10) (hd : d < 10)
    (rest : List Char) :
    getYear (Nat.digitChar a :: Nat.digitChar b :: Nat.digitChar c :: Nat.digitChar d :: rest)
      = some (((((a * 10 + b) * 10 + c) * 10 + d : Nat) : Int), rest) := by
  simp [getYear, digitsValue, digitChar_isDigit, digitChar_value, ha, hb, hc, hd]

theorem getnum_lt (v : List Char) (fx : Bool) (n : Nat) (v1 : List Char)
    (h : getnum v fx = some (n, v1)) : n < 100 := by
  cases v with
  | nil => simp [getnum] at h
  | cons c0 rest =>
    by_cases h0 : c0.isDigit = true
    · have b0 := isDigit_value_le c0 h0
      cases rest with
      | nil =>
        cases fx <;> simp [getnum, h0] at h
        omega
      | cons c1 rest1 =>
        by_cases h1 : c1.isDigit = true
        · have b1 := isDigit_value_le c1 h1
          simp [getnum, h0, h1] at h
          omega
        · cases fx <;> simp [getnum, h0, h1] at h
          omega
    · simp [getnum, h0] at h

theorem digitsValue_four (a b c d : Char) (n : Nat)
    (h : digitsValue [a, b, c, d] 0 = some n) : n < 10000 := by
  by_cases ha : a.isDigit = true
  · by_cases hb : b.isDigit = true
    · by_cases hc : c.isDigit = true
      · by_cases hd : d.isDigit = true
        · have := isDigit_value_le a ha
          have := isDigit_value_le b hb
          have := isDigit_value_le c hc
          have := isDigit_value_le d hd
          simp [digitsValue, ha, hb, hc, hd] at h
          omega
        · simp [digitsValue, ha, hb, hc, hd] at h
      · simp [digitsValue, ha, hb, hc] at h
    · simp [digitsValue, ha, hb] at h
  · simp [digitsValue, ha] at h

theorem getYear_range (v : List Char) (y : Int) (v1 : List Char)
    (h : getYear v = some (y, v1)) : 0 ≤ y ∧ y < 10000 := by
  unfold getYear at h
  split at h
  · rename_i a b c d rest
    split at h
    · split at h
      · rename_i n hn
        have := digitsValue_four a b c d n hn
        simp only [Option.some.injEq, Prod.mk.injEq] at h
        omega
      · simp at h
    · simp at h
  · simp at h

/-! ## What `time.Parse` returns for the form layout -/

theorem parse_nil_inv (f g : Fields) (v : List Char)
    (h : parseChunks [] f v = some g) : g = f ∧ v = [] := by
  cases v with
  | nil => simp [parseChunks] at h; exact ⟨h.symm, rfl⟩
  | cons c cs => simp [parseChunks] at h

theorem parse_lit_inv (p : List Char) (rest : List Chunk) (f g : Fields) (v : List Char)
    (h : parseChunks (.lit p :: rest) f v = some g) :
    ∃ v1, skip v p = some v1 ∧ parseChunks rest f v1 = some g := by
  simp only [parseChunks] at h
  split at h
  · rename_i v1 hv
    exact ⟨v1, hv, h⟩
  · simp at h

theorem parse_year_inv (rest : List Chunk) (f g : Fields) (v : List Char)
    (h : parseChunks (.stdLongYear :: rest) f v = some g) :
    ∃ y v1, getYear v = some (y, v1) ∧ parseChunks rest { f with year := y } v1 = some g := by
  simp only [parseChunks] at h
  split at h
  · rename_i y v1 hv
    exact ⟨y, v1, hv, h⟩
  · simp at h

theorem parse_month_inv (rest : List Chunk) (f g : Fields) (v : List Char)
    (h : parseChunks (.stdZeroMonth :: rest) f v = some g) :
    ∃ m v1, getnum v true = some (m, v1) ∧ 1 ≤ m ∧ m ≤ 12
      ∧ parseChunks rest { f with month := m } v1 = some g := by
  simp only [parseChunks] at h
  split at h
  · rename_i m v1 hv
    split at h
    · simp at h
    · rename_i hm
      exact ⟨m, v1, hv, by omega, by omega, h⟩
  · simp at h

theorem parse_day_inv (rest : List Chunk) (f g : Fields) (v : List Char)
    (h : parseChunks (.stdZeroDay :: rest) f v = some g) :
    ∃ d v1, getnum v true = some (d, v1) ∧ parseChunks rest { f with day := d } v1 = some g := by
  simp only [parseChunks] at h
  split at h
  · rename_i d v1 hv
    exact ⟨d, v1, hv, h⟩
  · simp at h

theorem parse_hour_inv (rest : List Chunk) (f g : Fields) (v : List Char)
    (h : parseChunks (.stdHour :: rest) f v = some g) :
    ∃ k v1, getnum v false = some (k, v1) ∧ k < 24
      ∧ parseChunks rest { f with hour := k } v1 = some g := by
  simp only [parseChunks] at h
  split at h
  · rename_i k v1 hv
    split at h
    · simp at h
    · rename_i hk
      exact ⟨k, v1, hv, by omega, h⟩
  · simp at h

theorem parse_minute_inv (rest : List Chunk) (f g : Fields) (v : List Char)
    (h : parseChunks (.stdZeroMinute :: rest) f v = some g) :
    ∃ k v1, getnum v true = some (k, v1) ∧ k < 60
      ∧ parseChunks rest { f with min := k } v1 = some g := by
  simp only [parseChunks] at h
  split at h
  · rename_i k v1 hv
    split at h
    · simp at h
    · rename_i hk
      exact ⟨k, v1, hv, by omega, h⟩
  · simp at h

theorem timeParse_form_fields (d : String) (t : Time)
    (h : timeParse layoutForm d = some t) : FormTime t := by
  unfold timeParse at h
  split at h
  · simp at h
  · rename_i f hf
    split at h
    · simp at h
    · rename_i hday
      simp only [Option.some.injEq] at h
      subst h
      unfold layoutForm at hf
      obtain ⟨y, v1, hy, hf⟩ := parse_year_inv _ _ _ _ hf
      obtain ⟨v2, -, hf⟩ := parse_lit_inv _ _ _ _ _ hf
      obtain ⟨m, v3, -, hm1, hm2, hf⟩ := parse_month_inv _ _ _ _ hf
      obtain ⟨v4, -, hf⟩ := parse_lit_inv _ _ _ _ _ hf
      obtain ⟨dd, v5, -, hf⟩ := parse_day_inv _ _ _ _ hf
      obtain ⟨v6, -, hf⟩ := parse_lit_inv _ _ _ _ _ hf
      obtain ⟨hh, v7, -, hh1, hf⟩ := parse_hour_inv _ _ _ _ hf
      obtain ⟨v8, -, hf⟩ := parse_lit_inv _ _ _ _ _ hf
      obtain ⟨mi, v9, -, hmi, hf⟩ := parse_minute_inv _ _ _ _ hf
      obtain ⟨hg, -⟩ := parse_nil_inv _ _ _ hf
      subst hg
      have hyr := getYear_range _ _ _ hy
      simp only [not_or, not_lt] at hday
      refine ⟨hyr.1, hyr.2, hm1, hm2, ?_, hday.2, hh1, hmi, rfl, rfl, rfl⟩
      exact hday.1

/-! ## Writing a deadline and reading it back -/

theorem appendInt_two (n : Nat) (h : n < 100) :
    appendInt (n : Int) 2 = [Nat.digitChar (n / 10), Nat.digitChar (n % 10)] := by
  have h0 : ¬ ((n : Int) < 0) := by omega
  simp [appendInt, h, h0]

theorem appendInt_four (n : Nat) (h : n < 10000) :
    appendInt (n : Int) 4 = [Nat.digitChar (n / 1000), Nat.digitChar (n / 100 % 10),
      Nat.digitChar (n / 10 % 10), Nat.digitChar (n % 10)] := by
  have h0 : ¬ ((n : Int) < 0) := by omega
  simp [appendInt, h, h0]

theorem digitChar_ne_space (k : Nat) (h : k < 10) : Nat.digitChar k ≠ ' ' := by
  interval_cases k <;> decide

theorem cutspace_of_ne (c : Char) (cs : List Char) (h : c ≠ ' ') :
    cutspace (c :: cs) = c :: cs := by
  unfold cutspace
  split
  · rename_i heq
    simp only [List.cons.injEq] at heq
    exact absurd heq.1 h
  · rfl

theorem format_write (y m d hh mi : Nat) (hy : y < 10000) (hm : m < 100) (hd : d < 100)
    (hhh : hh < 100) (hmi : mi < 100) :
    formatChunks layoutWrite ⟨(y : Int), m, d, hh, mi, 0, 0, 0⟩
      = [Nat.digitChar (y / 1000), Nat.digitChar (y / 100 % 10), Nat.digitChar (y / 10 % 10),
         Nat.digitChar (y % 10), '-', Nat.digitChar (m / 10), Nat.digitChar (m % 10), '-',
         Nat.digitChar (d / 10), Nat.digitChar (d % 10), ' ',
         Nat.digitChar (hh / 10), Nat.digitChar (hh % 10), ':',
         Nat.digitChar (mi / 10), Nat.digitChar (mi % 10), ':', '0', '0',
         '+', '0', '0', ':', '0', '0'] := by
  have hz : appendZone 0 = ['+', '0', '0', ':', '0', '0'] := by decide
  have hs : appendInt ((0 : Nat) : Int) 2 = ['0', '0'] := by decide
  have hn : appendNano 0 = [] := by decide
  simp only [layoutWrite, formatChunks, appendInt_four y hy, appendInt_two m hm,
    appendInt_two d hd, appendInt_two hh hhh, appendInt_two mi hmi, hz, hs, hn,
    List.cons_append, List.nil_append, List.append_nil]

theorem getnum_pad (n : Nat) (h : n < 100) (rest : List Char) (fx : Bool) :
    getnum (Nat.digitChar (n / 10) :: Nat.digitChar (n % 10) :: rest) fx = some (n, rest) := by
  rw [getnum_two _ _ (by omega) (by omega)]
  have : n / 10 * 10 + n % 10 = n := by omega
  rw [this]

theorem getYear_pad (y : Nat) (h : y < 10000) (rest : List Char) :
    getYear (Nat.digitChar (y / 1000) :: Nat.digitChar (y / 100 % 10)
      :: Nat.digitChar (y / 10 % 10) :: Nat.digitChar (y % 10) :: rest)
      = some ((y : Int), rest) := by
  rw [getYear_four _ _ _ _ (by omega) (by omega) (by omega) (by omega)]
  have : ((y / 1000 * 10 + y / 100 % 10) * 10 + y / 10 % 10) * 10 + y % 10 = y := by omega
  rw [this]

theorem skip_char (c : Char) (v : List Char) (hc : c ≠ ' ') : skip (c :: v) [c] = some v := by
  simp [skip, skipFrom, hc]

theorem skip_space (c : Char) (v : List Char) (hc : c ≠ ' ') :
    skip (' ' :: c :: v) [' '] = some (c :: v) := by
  simp [skip, skipFrom, cutspace, cutspace_of_ne c v hc]

theorem parse_read (y m d hh mi : Nat) (hy : y < 10000) (hm1 : 1 ≤ m) (hm : m ≤ 12)
    (hd : d < 100) (hhh : hh < 24) (hmi : mi < 60) :
    parseChunks layoutRead {}
      [Nat.digitChar (y / 1000), Nat.digitChar (y / 100 % 10), Nat.digitChar (y / 10 % 10),
         Nat.digitChar (y % 10), '-', Nat.digitChar (m / 10), Nat.digitChar (m % 10), '-',
         Nat.digitChar (d / 10), Nat.digitChar (d % 10), ' ',
         Nat.digitChar (hh / 10), Nat.digitChar (hh % 10), ':',
         Nat.digitChar (mi / 10), Nat.digitChar (mi % 10), ':', '0', '0',
         '+', '0', '0', ':', '0', '0']
      = some { year := (y : Int), month := m, day := d, hour := hh, min := mi, sec := 0,
               nsec := 0, zoneOffset := some 0 } := by
  have hsec : getnum ('0' :: '0' :: ['+', '0', '0', ':', '0', '0']) true
      = some (0, ['+', '0', '0', ':', '0', '0']) := by decide
  have hfrac : takeFraction ['+', '0', '0', ':', '0', '0'] = none := by decide
  have hzone : getZone ['+', '0', '0', ':', '0', '0'] = some (0, []) := by decide
  have hhead : (nextStd [Chunk.stdNumColonTZ] = some Chunk.stdFracSecond9) = False := by
    simp [nextStd]
  have hm0 : ¬ (m = 0 ∨ 12 < m) := by omega
  have hh0 : ¬ (24 ≤ hh) := by omega
  have hmi0 : ¬ (60 ≤ mi) := by omega
  simp only [layoutRead, parseChunks, getYear_pad y hy, getnum_pad m (by omega),
    getnum_pad d hd, getnum_pad hh (by omega), getnum_pad mi (by omega),
    skip_char '-' _ (by decide), skip_char ':' _ (by decide),
    skip_space _ _ (digitChar_ne_space (hh / 10) (by omega)), hsec, hfrac, hzone, hhead,
    hm0, hh0, hmi0, if_false, List.isEmpty_nil, if_true]
  simp

theorem daysIn_le (m : Nat) (y : Int) : daysIn m y ≤ 31 := by
  unfold daysIn
  split
  · omega
  · split <;> omega

theorem read_back (t : Time) (h : FormTime t) :
    timeParse layoutRead (timeFormat layoutWrite t) = some t := by
  obtain ⟨y, m, d, hh, mi, sec, nsec, off⟩ := t
  obtain ⟨hy0, hy1, hm1, hm2, hd1, hd2, hh1, hmi1, hs, hn, ho⟩ := h
  simp only at hy0 hy1 hm1 hm2 hd1 hd2 hh1 hmi1 hs hn ho
  subst hs hn ho
  have hd3 := daysIn_le m y
  lift y to Nat using hy0
  have hy : y < 10000 := by omega
  unfold timeParse timeFormat
  simp only [format_write y m d hh mi hy (by omega) (by omega) (by omega) (by omega),
    parse_read y m d hh mi hy hm1 hm2 (by omega) hh1 hmi1]
  have hday : ¬ (d < 1 ∨ daysIn m (y : Int) < d) := by omega
  simp only [hday, if_false, Option.getD_some]

/-! ## Listing -/

theorem scanRows_append_one (rs : List Row) (r : Row) (ts : List Task) (t : Task)
    (h1 : scanRows rs = some ts) (h2 : scanRow r = some t) :
    scanRows (rs ++ [r]) = some (ts ++ [t]) := by
  induction rs generalizing ts with
  | nil =>
    simp only [scanRows, Option.some.injEq] at h1
    subst h1
    simp [scanRows, h2]
  | cons a rs ih =>
    simp only [scanRows] at h1
    split at h1
    · simp at h1
    · rename_i ta hta
      split at h1
      · simp at h1
      · rename_i ts1 hts1
        simp only [Option.some.injEq] at h1
        subst h1
        simp [scanRows, hta, ih ts1 hts1]

theorem listTasks_root (s : Store) (q : Request) (hq : q.path = "/") :
    listTasks s q =
      match scanRows s.rows with
      | none => .fatal
      | some tasks => .reply s ⟨200, none, .index tasks⟩ := by
  simp [listTasks, NotFoundHandler, hq]

theorem listTasks_root_inv (s : Store) (q : Request) (ts : List Task) (hq : q.path = "/")
    (h : listTasks s q = .reply s ⟨200, none, .index ts⟩) : scanRows s.rows = some ts := by
  rw [listTasks_root s q hq] at h
  split at h
  · simp at h
  · rename_i tasks htasks
    simp only [Outcome.reply.injEq, Response.mk.injEq, Body.index.injEq, true_and] at h
    rw [htasks, h]

theorem maxId_ge (rs : List Row) (r : Row) (h : r ∈ rs) : r.id ≤ maxId rs := by
  induction rs with
  | nil => simp at h
  | cons a rs ih =>
    simp only [List.mem_cons] at h
    simp only [maxId]
    rcases h with h | h
    · subst h
      exact le_max_left _ _
    · exact le_trans (ih h) (le_max_right _ _)

theorem scanRow_written (id priority : Int) (description category : String) (d : Option Time)
    (hd : ∀ t, d = some t → FormTime t) :
    scanRow ⟨id, description, false, priority, bindDeadline d, category⟩
      = some ⟨id, description, false, priority, d, category⟩ := by
  cases d with
  | none => simp [scanRow, bindDeadline]
  | some t => simp [scanRow, bindDeadline, read_back t (hd t rfl)]

/-! ## `addTask` -/

theorem addTask_no_deadline (s : Store) (r : Request) (priority : Int)
    (hm : r.method = "POST") (hd : r.FormValue "task" ≠ " ")
    (hp : Atoi (r.FormValue "priority") = some priority)
    (hdl : r.FormValue "deadline" = "") :
    addTask s r = .reply (s.insert (r.FormValue "task") false priority none
      (r.FormValue "category")) (httpRedirect "/" 303) := by
  simp [addTask, hm, hd, hp, hdl, bindDeadline]

theorem addTask_with_deadline (s : Store) (r : Request) (priority : Int) (t : Time)
    (hm : r.method = "POST") (hd : r.FormValue "task" ≠ " ")
    (hp : Atoi (r.FormValue "priority") = some priority)
    (hne : r.FormValue "deadline" ≠ "")
    (ht : timeParse layoutForm (r.FormValue "deadline") = some t) :
    addTask s r = .reply (s.insert (r.FormValue "task") false priority
      (some (timeFormat layoutWrite t)) (r.FormValue "category")) (httpRedirect "/" 303) := by
  simp [addTask, hm, hd, hp, hne, ht, bindDeadline]

theorem addTask_valid (s : Store) (r : Request) (priority : Int)
    (hm : r.method = "POST") (hd : r.FormValue "task" ≠ " ")
    (hp : Atoi (r.FormValue "priority") = some priority)
    (hdl : r.FormValue "deadline" = ""
      ∨ (timeParse layoutForm (r.FormValue "deadline")).isSome = true) :
    ∃ d : Option Time, (∀ t, d = some t → FormTime t) ∧
      addTask s r = .reply (s.insert (r.FormValue "task") false priority (bindDeadline d)
        (r.FormValue "category")) (httpRedirect "/" 303) := by
  by_cases he : r.FormValue "deadline" = ""
  · exact ⟨none, by simp, addTask_no_deadline s r priority hm hd hp he⟩
  · rcases hdl with h | h
    · exact absurd h he
    · obtain ⟨t, ht⟩ := Option.isSome_iff_exists.mp h
      refine ⟨some t, ?_, addTask_with_deadline s r priority t hm hd hp he ht⟩
      intro t1 h1
      simp only [Option.some.injEq] at h1
      subst h1
      exact timeParse_form_fields _ _ ht

/-- C1: a POST to `/add` with an accepted description, a priority `Atoi`
parses and a deadline that is empty or parses is answered by a 303 to `/`;
the table afterwards is the previous table followed by one new row with a
fresh id, the submitted description, priority and category and `completed`
false; and where `listTasks` listed `ts` before, it lists `ts` followed by
exactly one task with those values afterwards. -/
theorem addTask_then_listTasks (s : Store) (r q : Request) (priority : Int) (ts : List Task)
    (hm : r.method = "POST") (hd : r.FormValue "task" ≠ " ")
    (hp : Atoi (r.FormValue "priority") = some priority)
    (hdl : r.FormValue "deadline" = ""
      ∨ (timeParse layoutForm (r.FormValue "deadline")).isSome = true)
    (hq : q.path = "/")
    (hl : listTasks s q = .reply s ⟨200, none, .index ts⟩) :
    ∃ s1 row task,
      addTask s r = .reply s1 ⟨303, some "/", .none⟩
      ∧ s1.rows = s.rows ++ [row]
      ∧ (∀ old ∈ s.rows, old.id < row.id)
      ∧ row.description = r.FormValue "task" ∧ row.priority = priority
      ∧ row.category = r.FormValue "category" ∧ row.completed = false
      ∧ listTasks s1 q = .reply s1 ⟨200, none, .index (ts ++ [task])⟩
      ∧ task.ID = row.id
      ∧ task.Description = r.FormValue "task" ∧ task.Priority = priority
      ∧ task.Category = r.FormValue "category" ∧ task.Completed = false := by
  obtain ⟨d, hdt, hadd⟩ := addTask_valid s r priority hm hd hp hdl
  have hscan := listTasks_root_inv s q ts hq hl
  refine ⟨_, ⟨max s.seq (maxId s.rows) + 1, r.FormValue "task", false, priority,
    bindDeadline d, r.FormValue "category"⟩,
    ⟨max s.seq (maxId s.rows) + 1, r.FormValue "task", false, priority, d,
      r.FormValue "category"⟩, hadd, rfl, ?_, rfl, rfl, rfl, rfl, ?_, rfl, rfl, rfl, rfl, rfl⟩
  · intro old hold
    have h1 := maxId_ge s.rows old hold
    have h2 : maxId s.rows ≤ max s.seq (maxId s.rows) := le_max_right _ _
    show old.id < max s.seq (maxId s.rows) + 1
    omega
  · rw [listTasks_root _ q hq]
    have h3 := scanRows_append_one s.rows _ ts _ hscan
      (scanRow_written (max s.seq (maxId s.rows) + 1) priority (r.FormValue "task")
        (r.FormValue "category") d hdt)
    simp only [Store.insert, h3]

theorem addTask_then_listTasks_witness :
    ∃ s1 row task,
      addTask ⟨[⟨1, "milk", false, 2, none, "home"⟩], 1⟩
          ⟨"POST", "/add", [("task", "report"), ("priority", "3"),
            ("deadline", "2025-06-01T10:00"), ("category", "work")]⟩
        = .reply s1 ⟨303, some "/", .none⟩
      ∧ s1.rows = [⟨1, "milk", false, 2, none, "home"⟩] ++ [row]
      ∧ (∀ old ∈ [(⟨1, "milk", false, 2, none, "home"⟩ : Row)], old.id < row.id)
      ∧ row.description = "report" ∧ row.priority = 3
      ∧ row.category = "work" ∧ row.completed = false
      ∧ listTasks s1 ⟨"GET", "/", []⟩
          = .reply s1 ⟨200, none, .index ([⟨1, "milk", false, 2, none, "home"⟩] ++ [task])⟩
      ∧ task.ID = row.id
      ∧ task.Description = "report" ∧ task.Priority = 3
      ∧ task.Category = "work" ∧ task.Completed = false :=
  addTask_then_listTasks ⟨[⟨1, "milk", false, 2, none, "home"⟩], 1⟩
    ⟨"POST", "/add", [("task", "report"), ("priority", "3"),
      ("deadline", "2025-06-01T10:00"), ("category", "work")]⟩
    ⟨"GET", "/", []⟩ 3 [⟨1, "milk", false, 2, none, "home"⟩]
    (by decide) (by decide) (by decide) (Or.inr (by decide)) (by decide) (by decide)

/-- C2: a POST to `/add` whose `task` field is the single space is answered
400 and the store is left as it was, whatever the other fields are. -/
theorem addTask_single_space (s : Store) (r : Request)
    (hm : r.method = "POST") (hd : r.FormValue "task" = " ") :
    addTask s r
      = .reply s ⟨400, none, .text "😒😒 Task description cannot be empty\n"⟩ := by
  simp only [addTask, hm, hd, ne_eq, not_true_eq_false, if_false, if_true]
  rfl

theorem addTask_single_space_witness :
    addTask ⟨[⟨1, "milk", false, 2, none, "home"⟩], 1⟩
        ⟨"POST", "/add", [("task", " "), ("priority", "3"), ("category", "work")]⟩
      = .reply ⟨[⟨1, "milk", false, 2, none, "home"⟩], 1⟩
          ⟨400, none, .text "😒😒 Task description cannot be empty\n"⟩ :=
  addTask_single_space ⟨[⟨1, "milk", false, 2, none, "home"⟩], 1⟩
    ⟨"POST", "/add", [("task", " "), ("priority", "3"), ("category", "work")]⟩
    (by decide) (by decide)

/-- C3 (the code at the failing input): a POST to `/add` with an empty `task`
field, or with none, and a valid priority is answered 303 and a row with the
empty description is added; the guard compares with the single space only. -/
theorem addTask_empty_description_is_stored :
    addTask ⟨[], 0⟩ ⟨"POST", "/add", [("task", ""), ("priority", "1")]⟩
        = .reply ⟨[⟨1, "", false, 1, none, ""⟩], 1⟩ ⟨303, some "/", .none⟩
    ∧ addTask ⟨[], 0⟩ ⟨"POST", "/add", [("priority", "1")]⟩
        = .reply ⟨[⟨1, "", false, 1, none, ""⟩], 1⟩ ⟨303, some "/", .none⟩ := by
  constructor <;> decide

/-- C4: a POST to `/add` whose priority `Atoi` rejects, or whose deadline is
not empty and is rejected by `time.Parse` with the layout `2006-01-02T15:04`,
is answered 400 (with the message of the first check that fails) and the store
is left as it was. -/
theorem addTask_bad_priority_or_deadline (s : Store) (r : Request)
    (hm : r.method = "POST")
    (hbad : Atoi (r.FormValue "priority") = none
      ∨ (r.FormValue "deadline" ≠ ""
          ∧ timeParse layoutForm (r.FormValue "deadline") = none)) :
    ∃ msg, msg ∈ ["😒😒 Task description cannot be empty", "Invalid priority value",
                   "Invalid deadline format"]
      ∧ addTask s r = .reply s ⟨400, none, .text (msg ++ "\n")⟩ := by
  by_cases hd : r.FormValue "task" = " "
  · exact ⟨"😒😒 Task description cannot be empty", by simp,
      by simp [addTask, hm, hd, httpError]⟩
  · cases hp : Atoi (r.FormValue "priority") with
    | none => exact ⟨"Invalid priority value", by simp, by simp [addTask, hm, hd, hp, httpError]⟩
    | some priority =>
      rcases hbad with h | ⟨hne, hnone⟩
      · rw [hp] at h
        simp at h
      · exact ⟨"Invalid deadline format", by simp,
          by simp [addTask, hm, hd, hp, hne, hnone, httpError]⟩

theorem addTask_bad_priority_or_deadline_witness :
    (∃ msg, msg ∈ ["😒😒 Task description cannot be empty", "Invalid priority value",
                   "Invalid deadline format"]
      ∧ addTask ⟨[], 0⟩ ⟨"POST", "/add", [("task", "report"), ("priority", "abc")]⟩
          = .reply ⟨[], 0⟩ ⟨400, none, .text (msg ++ "\n")⟩)
    ∧ (∃ msg, msg ∈ ["😒😒 Task description cannot be empty", "Invalid priority value",
                   "Invalid deadline format"]
      ∧ addTask ⟨[], 0⟩ ⟨"POST", "/add", [("task", "report"), ("priority", "")]⟩
          = .reply ⟨[], 0⟩ ⟨400, none, .text (msg ++ "\n")⟩)
    ∧ (∃ msg, msg ∈ ["😒😒 Task description cannot be empty", "Invalid priority value",
                   "Invalid deadline format"]
      ∧ addTask ⟨[], 0⟩ ⟨"POST", "/add", [("task", "report"), ("priority", "3"),
            ("deadline", "2025-13-40T99:99")]⟩
          = .reply ⟨[], 0⟩ ⟨400, none, .text (msg ++ "\n")⟩) :=
  ⟨addTask_bad_priority_or_deadline ⟨[], 0⟩
      ⟨"POST", "/add", [("task", "report"), ("priority", "abc")]⟩ (by decide)
      (Or.inl (by decide)),
   addTask_bad_priority_or_deadline ⟨[], 0⟩
      ⟨"POST", "/add", [("task", "report"), ("priority", "")]⟩ (by decide)
      (Or.inl (by decide)),
   addTask_bad_priority_or_deadline ⟨[], 0⟩
      ⟨"POST", "/add", [("task", "report"), ("priority", "3"),
        ("deadline", "2025-13-40T99:99")]⟩ (by decide)
      (Or.inr ⟨by decide, by decide⟩)⟩

/-- C5: for a deadline string that `addTask` accepts, the text stored for the
deadline is the driver's rendering of the parsed time, `listTasks` parses that
text with the layout `2006-01-02 15:04:05-07:00` without error, and the task
`listTasks` returns for the new row carries a time that denotes the same
instant as the one `addTask` parsed; an empty deadline is stored as NULL and
the task `listTasks` returns for the new row has no deadline. -/
theorem deadline_round_trip (s : Store) (r : Request) (priority : Int)
    (hm : r.method = "POST") (hd : r.FormValue "task" ≠ " ")
    (hp : Atoi (r.FormValue "priority") = some priority) :
    (∀ t, r.FormValue "deadline" ≠ "" →
        timeParse layoutForm (r.FormValue "deadline") = some t →
        ∃ s1 row t1,
          addTask s r = .reply s1 ⟨303, some "/", .none⟩
          ∧ s1.rows = s.rows ++ [row]
          ∧ row.deadline = some (timeFormat layoutWrite t)
          ∧ timeParse layoutRead (timeFormat layoutWrite t) = some t1
          ∧ Time.Equal t1 t
          ∧ (scanRow row).map Task.Deadline = some (some t1)
          ∧ (∀ (q : Request) (ts : List Task), q.path = "/" →
              listTasks s q = .reply s ⟨200, none, .index ts⟩ →
              ∃ task : Task,
                listTasks s1 q = .reply s1 ⟨200, none, .index (ts ++ [task])⟩
                ∧ task.ID = row.id ∧ task.Deadline = some t1))
    ∧ (r.FormValue "deadline" = "" →
        ∃ s1 row,
          addTask s r = .reply s1 ⟨303, some "/", .none⟩
          ∧ s1.rows = s.rows ++ [row]
          ∧ row.deadline = none
          ∧ (scanRow row).map Task.Deadline = some none
          ∧ (∀ (q : Request) (ts : List Task), q.path = "/" →
              listTasks s q = .reply s ⟨200, none, .index ts⟩ →
              ∃ task : Task,
                listTasks s1 q = .reply s1 ⟨200, none, .index (ts ++ [task])⟩
                ∧ task.ID = row.id ∧ task.Deadline = none)) := by
  constructor
  · intro t hne ht
    have hrb := read_back t (timeParse_form_fields _ _ ht)
    have hrow : scanRow ⟨max s.seq (maxId s.rows) + 1, r.FormValue "task", false, priority,
        some (timeFormat layoutWrite t), r.FormValue "category"⟩
        = some ⟨max s.seq (maxId s.rows) + 1, r.FormValue "task", false, priority, some t,
            r.FormValue "category"⟩ := by
      simp [scanRow, hrb]
    refine ⟨_, ⟨max s.seq (maxId s.rows) + 1, r.FormValue "task", false, priority,
      some (timeFormat layoutWrite t), r.FormValue "category"⟩, t,
      addTask_with_deadline s r priority t hm hd hp hne ht, rfl, rfl, hrb, ⟨rfl, rfl⟩, ?_, ?_⟩
    · simp [scanRow, hrb]
    · intro q ts hq hl
      have hscan := listTasks_root_inv s q ts hq hl
      refine ⟨⟨max s.seq (maxId s.rows) + 1, r.FormValue "task", false, priority, some t,
        r.FormValue "category"⟩, ?_, rfl, rfl⟩
      rw [listTasks_root _ q hq]
      have h3 := scanRows_append_one s.rows _ ts _ hscan hrow
      simp only [Store.insert, h3]
  · intro he
    have hrow : scanRow ⟨max s.seq (maxId s.rows) + 1, r.FormValue "task", false, priority,
        none, r.FormValue "category"⟩
        = some ⟨max s.seq (maxId s.rows) + 1, r.FormValue "task", false, priority, none,
            r.FormValue "category"⟩ := by
      simp [scanRow]
    refine ⟨_, ⟨max s.seq (maxId s.rows) + 1, r.FormValue "task", false, priority,
      none, r.FormValue "category"⟩,
      addTask_no_deadline s r priority hm hd hp he, rfl, rfl, ?_, ?_⟩
    · simp [scanRow]
    · intro q ts hq hl
      have hscan := listTasks_root_inv s q ts hq hl
      refine ⟨⟨max s.seq (maxId s.rows) + 1, r.FormValue "task", false, priority, none,
        r.FormValue "category"⟩, ?_, rfl, rfl⟩
      rw [listTasks_root _ q hq]
      have h3 := scanRows_append_one s.rows _ ts _ hscan hrow
      simp only [Store.insert, h3]

theorem deadline_round_trip_witness :
    ∃ (s1 : Store) (row : Row) (t1 : Time) (task : Task),
      addTask ⟨[⟨1, "milk", false, 2, none, "home"⟩], 1⟩
          ⟨"POST", "/add", [("task", "report"), ("priority", "3"),
            ("deadline", "2025-06-01T10:00")]⟩ = .reply s1 ⟨303, some "/", .none⟩
      ∧ s1.rows = [⟨1, "milk", false, 2, none, "home"⟩] ++ [row]
      ∧ row.deadline = some "2025-06-01 10:00:00+00:00"
      ∧ timeParse layoutRead "2025-06-01 10:00:00+00:00" = some t1
      ∧ t1.unix = 1748772000
      ∧ listTasks s1 ⟨"GET", "/", []⟩
          = .reply s1 ⟨200, none, .index ([⟨1, "milk", false, 2, none, "home"⟩] ++ [task])⟩
      ∧ task.ID = row.id ∧ task.Deadline = some t1 := by
  obtain ⟨s1, row, t1, h1, h2, h3, h4, h5, -, h7⟩ :=
    (deadline_round_trip ⟨[⟨1, "milk", false, 2, none, "home"⟩], 1⟩
      ⟨"POST", "/add", [("task", "report"), ("priority", "3"),
        ("deadline", "2025-06-01T10:00")]⟩ 3 (by decide) (by decide) (by decide)).1
      ⟨2025, 6, 1, 10, 0, 0, 0, 0⟩ (by decide) (by decide)
  obtain ⟨task, h8, h9, h10⟩ :=
    h7 ⟨"GET", "/", []⟩ [⟨1, "milk", false, 2, none, "home"⟩] (by decide) (by decide)
  exact ⟨s1, row, t1, task, h1, h2, h3.trans (by decide), h4, h5.1.trans (by decide),
    h8, h9, h10⟩

/-! ## `deleteTask`, `updateTask`, `renderUpdateTaskPage` -/

theorem sliceFrom_append (p taskID : String) :
    sliceFrom (p ++ taskID) p.length = some taskID := by
  unfold sliceFrom
  have h1 : (p ++ taskID).data = p.data ++ taskID.data := String.data_append p taskID
  have h2 : p.length = p.data.length := rfl
  rw [h1, h2]
  have h3 : ¬ ((p.data ++ taskID.data).length < p.data.length) := by
    rw [List.length_append]
    omega
  rw [if_neg h3, List.drop_left]

theorem filter_ne_eq_erase (k : Option Int) (rows : List Row) (row : Row)
    (hnd : (rows.map Row.id).Nodup) (hmem : row ∈ rows) (hk : k = some row.id) :
    rows.filter (fun r => decide (k ≠ some r.id)) = rows.erase row := by
  subst hk
  induction rows with
  | nil => simp at hmem
  | cons a rs ih =>
    simp only [List.map_cons, List.nodup_cons, List.mem_map, not_exists, not_and] at hnd
    by_cases ha : a = row
    · subst ha
      have hrest : rs.filter (fun r => decide (some a.id ≠ some r.id)) = rs := by
        apply List.filter_eq_self.mpr
        intro b hb
        have := hnd.1 b hb
        simp only [ne_eq, Option.some.injEq, decide_not, Bool.not_eq_true',
          decide_eq_false_iff_not]
        exact fun h => this h.symm
      have hdrop : decide (some a.id ≠ some a.id) = false := by simp
      rw [List.filter_cons, hdrop, List.erase_cons_head, hrest]
      rfl
    · have hmem2 : row ∈ rs := by
        simp only [List.mem_cons] at hmem
        rcases hmem with h | h
        · exact absurd h.symm ha
        · exact h
      have hid : row.id ≠ a.id := fun h => hnd.1 row hmem2 h
      have hkeep : decide (some row.id ≠ some a.id) = true := by
        simp [hid]
      rw [List.filter_cons, if_pos hkeep, ih hnd.2 hmem2, List.erase_cons_tail]
      simpa using ha

theorem filter_ne_eq_self (k : Option Int) (rows : List Row)
    (h : ∀ row ∈ rows, k ≠ some row.id) :
    rows.filter (fun r => decide (k ≠ some r.id)) = rows := by
  apply List.filter_eq_self.mpr
  intro b hb
  simpa using h b hb

theorem scanRow_id (r : Row) (t : Task) (h : scanRow r = some t) : t.ID = r.id := by
  unfold scanRow at h
  split at h
  · simp only [Option.some.injEq] at h
    subst h
    rfl
  · split at h
    · simp only [Option.some.injEq] at h
      subst h
      rfl
    · simp at h

theorem scanRows_filter (p : Int → Bool) (rows : List Row) (ts : List Task)
    (h : scanRows rows = some ts) :
    scanRows (rows.filter (fun r => p r.id)) = some (ts.filter (fun t => p t.ID)) := by
  induction rows generalizing ts with
  | nil =>
    simp only [scanRows, Option.some.injEq] at h
    subst h
    simp [scanRows]
  | cons a rs ih =>
    simp only [scanRows] at h
    split at h
    · simp at h
    · rename_i ta hta
      split at h
      · simp at h
      · rename_i ts1 hts1
        simp only [Option.some.injEq] at h
        subst h
        have hid := scanRow_id a ta hta
        by_cases hp : p a.id = true
        · have hp2 : p ta.ID = true := by rw [hid]; exact hp
          simp [List.filter_cons, hp, hp2, scanRows, hta, ih ts1 hts1]
        · have hp2 : ¬ p ta.ID = true := by rw [hid]; exact hp
          simp [List.filter_cons, hp, hp2, ih ts1 hts1]

/-- C6: a POST to `/delete/` followed by an id text is answered by a 303 to
`/` whether or not a row has that id.  If a row has it (ids being distinct),
the table afterwards is the previous table with exactly that row taken out;
if none has it, the store is as before.  What `listTasks` listed before, it
lists afterwards without the tasks of that id. -/
theorem deleteTask_effect (coerce : String → Option Int) (s : Store) (r : Request)
    (taskID : String) (hm : r.method = "POST") (hpath : r.path = "/delete/" ++ taskID) :
    ∃ s1,
      deleteTask coerce s r = .reply s1 ⟨303, some "/", .none⟩
      ∧ s1.seq = s.seq
      ∧ (s.KeysDistinct → ∀ row ∈ s.rows, coerce taskID = some row.id →
          s1.rows = s.rows.erase row ∧ row ∉ s1.rows)
      ∧ ((∀ row ∈ s.rows, coerce taskID ≠ some row.id) → s1 = s)
      ∧ (∀ q ts, q.path = "/" → listTasks s q = .reply s ⟨200, none, .index ts⟩ →
          listTasks s1 q = .reply s1
            ⟨200, none, .index (ts.filter (fun t => decide (coerce taskID ≠ some t.ID)))⟩) := by
  have hslice : sliceFrom r.path "/delete/".length = some taskID := by
    rw [hpath]
    exact sliceFrom_append "/delete/" taskID
  refine ⟨s.delete coerce taskID, ?_, rfl, ?_, ?_, ?_⟩
  · simp [deleteTask, hm, hslice, httpRedirect]
  · intro hk row hrow hid
    have he : (s.delete coerce taskID).rows = s.rows.erase row :=
      filter_ne_eq_erase (coerce taskID) s.rows row hk hrow hid
    refine ⟨he, ?_⟩
    rw [he]
    intro hin
    have hnd : s.rows.Nodup := List.Nodup.of_map _ hk
    exact (List.Nodup.mem_erase_iff hnd).mp hin |>.1 rfl
  · intro hnone
    have he : (s.delete coerce taskID).rows = s.rows :=
      filter_ne_eq_self (coerce taskID) s.rows hnone
    cases s
    simp only [Store.delete] at he ⊢
    simp only [he]
  · intro q ts hq hl
    have hscan := listTasks_root_inv s q ts hq hl
    rw [listTasks_root _ q hq]
    have h2 := scanRows_filter (fun i => decide (coerce taskID ≠ some i)) s.rows ts hscan
    simp only [Store.delete, h2]

theorem deleteTask_effect_witness :
    ∃ s1,
      deleteTask decimalId
          ⟨[⟨1, "milk", false, 2, none, "home"⟩, ⟨2, "report", false, 3, none, "work"⟩], 2⟩
          ⟨"POST", "/delete/1", []⟩ = .reply s1 ⟨303, some "/", .none⟩
      ∧ s1.seq = 2
      ∧ s1.rows = [⟨2, "report", false, 3, none, "work"⟩] := by
  obtain ⟨s1, h1, h2, h3, -, -⟩ := deleteTask_effect decimalId
    ⟨[⟨1, "milk", false, 2, none, "home"⟩, ⟨2, "report", false, 3, none, "work"⟩], 2⟩
    ⟨"POST", "/delete/1", []⟩ "1" (by decide) (by decide)
  exact ⟨s1, h1, h2,
    (h3 (by unfold Store.KeysDistinct; decide) ⟨1, "milk", false, 2, none, "home"⟩
      (by decide) (by decide)).1.trans (by decide)⟩

theorem find_by_id (k : Option Int) (rows : List Row) (row : Row)
    (hnd : (rows.map Row.id).Nodup) (hmem : row ∈ rows) (hk : k = some row.id) :
    rows.find? (fun r => decide (k = some r.id)) = some row := by
  subst hk
  induction rows with
  | nil => simp at hmem
  | cons a rs ih =>
    simp only [List.map_cons, List.nodup_cons, List.mem_map, not_exists, not_and] at hnd
    by_cases ha : a = row
    · subst ha
      simp [List.find?_cons]
    · have hmem2 : row ∈ rs := by
        simp only [List.mem_cons] at hmem
        rcases hmem with h | h
        · exact absurd h.symm ha
        · exact h
      have hid : row.id ≠ a.id := fun h => hnd.1 row hmem2 h
      have hskip : decide (some row.id = some a.id) = false := by
        simp [hid]
      rw [List.find?_cons, hskip]
      exact ih hnd.2 hmem2

/-- C7: a POST to `/update/submit/` is answered by a 303 to `/`; the table
keeps its length and order; each row keeps its id, completed flag, priority,
deadline and category; the row whose id the `id` field denotes gets the
submitted `task` text as its description, every other row is as before; and
when no row has that id the store is as before. -/
theorem updateTask_frame (coerce : String → Option Int) (s : Store) (r : Request)
    (hm : r.method = "POST") :
    ∃ s1,
      updateTask coerce s r = .reply s1 ⟨303, some "/", .none⟩
      ∧ s1.seq = s.seq
      ∧ s1.rows.length = s.rows.length
      ∧ (∀ (i : Nat) (row : Row), s.rows[i]? = some row →
          ∃ row1 : Row, s1.rows[i]? = some row1
            ∧ row1.id = row.id ∧ row1.completed = row.completed
            ∧ row1.priority = row.priority ∧ row1.deadline = row.deadline
            ∧ row1.category = row.category
            ∧ (coerce (r.FormValue "id") = some row.id →
                row1.description = r.FormValue "task")
            ∧ (coerce (r.FormValue "id") ≠ some row.id → row1 = row))
      ∧ ((∀ row ∈ s.rows, coerce (r.FormValue "id") ≠ some row.id) → s1 = s) := by
  refine ⟨s.updateDescription coerce (r.FormValue "task") (r.FormValue "id"), ?_, rfl, ?_,
    ?_, ?_⟩
  · simp [updateTask, hm, httpRedirect]
  · simp [Store.updateDescription]
  · intro i row hi
    by_cases hc : coerce (r.FormValue "id") = some row.id
    · refine ⟨{ row with description := r.FormValue "task" }, ?_, rfl, rfl, rfl, rfl, rfl,
        fun _ => rfl, fun h => absurd hc h⟩
      simp [Store.updateDescription, List.getElem?_map, hi, hc]
    · refine ⟨row, ?_, rfl, rfl, rfl, rfl, rfl, fun h => absurd h hc, fun _ => rfl⟩
      simp [Store.updateDescription, List.getElem?_map, hi, hc]
  · intro hnone
    have he : s.rows.map (fun row =>
        if coerce (r.FormValue "id") = some row.id
        then { row with description := r.FormValue "task" } else row) = s.rows := by
      conv => rhs; rw [← List.map_id s.rows]
      apply List.map_congr_left
      intro row hrow
      simp [hnone row hrow]
    cases s
    simp only [Store.updateDescription] at he ⊢
    simp only [he]

theorem updateTask_frame_witness :
    ∃ s1,
      updateTask decimalId
          ⟨[⟨1, "milk", false, 2, none, "home"⟩, ⟨2, "report", true, 3, none, "work"⟩], 2⟩
          ⟨"POST", "/update/submit/", [("id", "2"), ("task", "slides")]⟩
        = .reply s1 ⟨303, some "/", .none⟩
      ∧ s1.seq = 2
      ∧ s1.rows.length = 2
      ∧ (∃ row1 : Row, s1.rows[1]? = some row1 ∧ row1.id = 2 ∧ row1.completed = true
          ∧ row1.priority = 3 ∧ row1.deadline = none ∧ row1.category = "work"
          ∧ row1.description = "slides")
      ∧ s1.rows[0]? = some ⟨1, "milk", false, 2, none, "home"⟩ := by
  obtain ⟨s1, h1, h2, h3, h4, -⟩ := updateTask_frame decimalId
    ⟨[⟨1, "milk", false, 2, none, "home"⟩, ⟨2, "report", true, 3, none, "work"⟩], 2⟩
    ⟨"POST", "/update/submit/", [("id", "2"), ("task", "slides")]⟩ (by decide)
  refine ⟨s1, h1, h2, h3, ?_, ?_⟩
  · obtain ⟨row1, e1, e2, e3, e4, e5, e6, e7, -⟩ :=
      h4 1 ⟨2, "report", true, 3, none, "work"⟩ (by decide)
    exact ⟨row1, e1, e2, e3, e4, e5, e6, e7 (by decide)⟩
  · obtain ⟨row1, e1, -, -, -, -, -, -, e8⟩ :=
      h4 0 ⟨1, "milk", false, 2, none, "home"⟩ (by decide)
    rw [e1, e8 (by decide)]

/-- C9: for a request to `/update/` followed by an id text, when no stored
row has the id the text denotes the answer is 404 `Task not found` and no form
is rendered; when a row has it (ids being distinct), the task handed to the
update template has that row's id, description and completed flag. -/
theorem renderUpdateTaskPage_lookup (coerce : String → Option Int) (s : Store) (r : Request)
    (taskID : String) (hpath : r.path = "/update/" ++ taskID) :
    ((∀ row ∈ s.rows, coerce taskID ≠ some row.id) →
        renderUpdateTaskPage coerce s r = .reply s ⟨404, none, .text "Task not found\n"⟩)
    ∧ (s.KeysDistinct → ∀ row ∈ s.rows, coerce taskID = some row.id →
        ∃ task : Task,
          renderUpdateTaskPage coerce s r = .reply s ⟨200, none, .update task⟩
          ∧ task.ID = row.id ∧ task.Description = row.description
          ∧ task.Completed = row.completed) := by
  have hslice : sliceFrom r.path "/update/".length = some taskID := by
    rw [hpath]
    exact sliceFrom_append "/update/" taskID
  constructor
  · intro hnone
    have hfind : s.selectById coerce taskID = none := by
      unfold Store.selectById
      apply List.find?_eq_none.mpr
      intro row hrow
      simpa using hnone row hrow
    simp only [renderUpdateTaskPage, hslice, hfind]
    rfl
  · intro hk row hrow hid
    have hfind : s.selectById coerce taskID = some row :=
      find_by_id (coerce taskID) s.rows row hk hrow hid
    exact ⟨⟨row.id, row.description, row.completed, 0, none, ""⟩,
      by simp only [renderUpdateTaskPage, hslice, hfind], rfl, rfl, rfl⟩

theorem renderUpdateTaskPage_lookup_witness :
    renderUpdateTaskPage decimalId ⟨[⟨1, "milk", true, 2, none, "home"⟩], 1⟩
        ⟨"GET", "/update/7", []⟩
      = .reply ⟨[⟨1, "milk", true, 2, none, "home"⟩], 1⟩
          ⟨404, none, .text "Task not found\n"⟩
    ∧ renderUpdateTaskPage decimalId ⟨[⟨1, "milk", true, 2, none, "home"⟩], 1⟩
        ⟨"GET", "/update/", []⟩
      = .reply ⟨[⟨1, "milk", true, 2, none, "home"⟩], 1⟩
          ⟨404, none, .text "Task not found\n"⟩
    ∧ renderUpdateTaskPage decimalId ⟨[⟨1, "milk", true, 2, none, "home"⟩], 1⟩
        ⟨"GET", "/update/abc", []⟩
      = .reply ⟨[⟨1, "milk", true, 2, none, "home"⟩], 1⟩
          ⟨404, none, .text "Task not found\n"⟩
    ∧ ∃ task : Task,
        renderUpdateTaskPage decimalId ⟨[⟨1, "milk", true, 2, none, "home"⟩], 1⟩
            ⟨"GET", "/update/1", []⟩
          = .reply ⟨[⟨1, "milk", true, 2, none, "home"⟩], 1⟩ ⟨200, none, .update task⟩
        ∧ task.ID = 1 ∧ task.Description = "milk" ∧ task.Completed = true :=
  ⟨(renderUpdateTaskPage_lookup decimalId ⟨[⟨1, "milk", true, 2, none, "home"⟩], 1⟩
      ⟨"GET", "/update/7", []⟩ "7" (by decide)).1 (by decide),
   (renderUpdateTaskPage_lookup decimalId ⟨[⟨1, "milk", true, 2, none, "home"⟩], 1⟩
      ⟨"GET", "/update/", []⟩ "" (by decide)).1 (by decide),
   (renderUpdateTaskPage_lookup decimalId ⟨[⟨1, "milk", true, 2, none, "home"⟩], 1⟩
      ⟨"GET", "/update/abc", []⟩ "abc" (by decide)).1 (by decide),
   (renderUpdateTaskPage_lookup decimalId ⟨[⟨1, "milk", true, 2, none, "home"⟩], 1⟩
      ⟨"GET", "/update/1", []⟩ "1" (by decide)).2 (by unfold Store.KeysDistinct; decide)
      ⟨1, "milk", true, 2, none, "home"⟩ (by decide) (by decide)⟩

/-- C10: to a request whose method is not POST each of `addTask`,
`deleteTask` and `updateTask` answers 405 and leaves the store as it was. -/
theorem mutating_handlers_require_post (coerce : String → Option Int) (s : Store)
    (r : Request) (hm : r.method ≠ "POST") :
    addTask s r = .reply s ⟨405, none, .text "Method not allowed\n"⟩
    ∧ deleteTask coerce s r = .reply s ⟨405, none, .text "Method not allowed\n"⟩
    ∧ updateTask coerce s r = .reply s ⟨405, none, .text "Method not allowed\n"⟩ := by
  refine ⟨?_, ?_, ?_⟩
  · simp only [addTask, hm, ne_eq, not_false_eq_true, if_true]
    rfl
  · simp only [deleteTask, hm, ne_eq, not_false_eq_true, if_true]
    rfl
  · simp only [updateTask, hm, ne_eq, not_false_eq_true, if_true]
    rfl

theorem mutating_handlers_require_post_witness :
    addTask ⟨[⟨1, "milk", false, 2, none, "home"⟩], 1⟩
        ⟨"GET", "/add", [("task", "report"), ("priority", "3")]⟩
      = .reply ⟨[⟨1, "milk", false, 2, none, "home"⟩], 1⟩
          ⟨405, none, .text "Method not allowed\n"⟩
    ∧ deleteTask decimalId ⟨[⟨1, "milk", false, 2, none, "home"⟩], 1⟩
        ⟨"GET", "/add", [("task", "report"), ("priority", "3")]⟩
      = .reply ⟨[⟨1, "milk", false, 2, none, "home"⟩], 1⟩
          ⟨405, none, .text "Method not allowed\n"⟩
    ∧ updateTask decimalId ⟨[⟨1, "milk", false, 2, none, "home"⟩], 1⟩
        ⟨"GET", "/add", [("task", "report"), ("priority", "3")]⟩
      = .reply ⟨[⟨1, "milk", false, 2, none, "home"⟩], 1⟩
          ⟨405, none, .text "Method not allowed\n"⟩ :=
  mutating_handlers_require_post decimalId ⟨[⟨1, "milk", false, 2, none, "home"⟩], 1⟩
    ⟨"GET", "/add", [("task", "report"), ("priority", "3")]⟩ (by decide)

/-! ## Unknown paths -/

/-- C8 as stated fails: `/delete/5` and `/update/5` are not among the five
known paths and are not under `/static/`, yet a GET of `/delete/5` is routed
to `deleteTask` and answered 405, and a GET of `/update/5` is routed to
`renderUpdateTaskPage` and answered with the form of task 5 when it exists
(with another 404 text when it does not). -/
theorem unknown_path_not_always_404 :
    "/delete/5" ∉ knownPaths ∧ "/update/5" ∉ knownPaths
    ∧ startsWith "/delete/5".data "/static/".data = false
    ∧ startsWith "/update/5".data "/static/".data = false
    ∧ serve decimalId ⟨[], 0⟩ ⟨"GET", "/delete/5", []⟩
        = .done (.reply ⟨[], 0⟩ ⟨405, none, .text "Method not allowed\n"⟩)
    ∧ serve decimalId ⟨[⟨5, "milk", false, 2, none, "home"⟩], 5⟩ ⟨"GET", "/update/5", []⟩
        = .done (.reply ⟨[⟨5, "milk", false, 2, none, "home"⟩], 5⟩
            ⟨200, none, .update ⟨5, "milk", false, 0, none, ""⟩⟩)
    ∧ serve decimalId ⟨[], 0⟩ ⟨"GET", "/update/5", []⟩
        = .done (.reply ⟨[], 0⟩ ⟨404, none, .text "Task not found\n"⟩)
    ∧ "Task not found\n" ≠ notFoundMessage ++ "\n" := by
  refine ⟨by decide, by decide, by decide, by decide, by decide, by decide, by decide,
    by decide⟩

/-- C8, amended: a request of any method that the router hands to `listTasks`
(the catch-all registration `/`) and whose path is not one of the five known
paths is answered 404 with the configured message, and the store is left as it
was. -/
theorem unknown_path_on_catch_all (coerce : String → Option Int) (s : Store) (r : Request)
    (hroute : muxHandler r.path = .handle .listTasks) (hunk : r.path ∉ knownPaths) :
    serve coerce s r = .done (.reply s ⟨404, none, .text (notFoundMessage ++ "\n")⟩) := by
  have hnf : NotFoundHandler r = some (httpError notFoundMessage 404) := by
    simp only [knownPaths, List.mem_cons, List.mem_singleton, List.not_mem_nil, or_false]
      at hunk
    simp only [NotFoundHandler, hunk, not_false_eq_true, if_true]
  simp only [serve, hroute, listTasks, hnf]
  rfl

theorem unknown_path_on_catch_all_witness :
    serve decimalId ⟨[⟨1, "milk", false, 2, none, "home"⟩], 1⟩ ⟨"GET", "/nope", []⟩
        = .done (.reply ⟨[⟨1, "milk", false, 2, none, "home"⟩], 1⟩
            ⟨404, none, .text (notFoundMessage ++ "\n")⟩) :=
  unknown_path_on_catch_all decimalId ⟨[⟨1, "milk", false, 2, none, "home"⟩], 1⟩
    ⟨"GET", "/nope", []⟩ (by decide) (by decide)

/-! ## The primary key is kept -/

theorem insert_keysDistinct (s : Store) (description category : String) (completed : Bool)
    (priority : Int) (deadline : Option String) (h : s.KeysDistinct) :
    (s.insert description completed priority deadline category).KeysDistinct := by
  unfold Store.KeysDistinct at h ⊢
  simp only [Store.insert, List.map_append, List.map_cons, List.map_nil]
  apply List.Nodup.append h (List.nodup_singleton _)
  intro i hi hnew
  simp only [List.mem_singleton] at hnew
  obtain ⟨row, hrow, hid⟩ := List.mem_map.mp hi
  have h1 := maxId_ge s.rows row hrow
  have h2 : maxId s.rows ≤ max s.seq (maxId s.rows) := le_max_right _ _
  omega

theorem delete_keysDistinct (coerce : String → Option Int) (s : Store) (taskID : String)
    (h : s.KeysDistinct) : (s.delete coerce taskID).KeysDistinct := by
  unfold Store.KeysDistinct at h ⊢
  exact List.Nodup.sublist (List.Sublist.map _ (List.filter_sublist _)) h

theorem updateDescription_keysDistinct (coerce : String → Option Int) (s : Store)
    (description taskID : String) (h : s.KeysDistinct) :
    (s.updateDescription coerce description taskID).KeysDistinct := by
  unfold Store.KeysDistinct at h ⊢
  have he : (s.updateDescription coerce description taskID).rows.map Row.id
      = s.rows.map Row.id := by
    simp only [Store.updateDescription, List.map_map]
    apply List.map_congr_left
    intro row _
    simp only [Function.comp]
    split <;> rfl
  rw [he]
  exact h

end TodoList
